import Mathlib

/-!
Shallow embedding of the PingTracer-- concurrent sampling and rolling-history
engine (src/PingTracer--.py together with the configuration defaults of
src/config.py), and a verification of its specified properties.

Python floats are modelled by ℚ; Python `int(...)` truncation and `round(x, 1)`
(round half to even) are modelled explicitly.  A ping result as carried through
the result queue is `None` (timeout), `False` (error) or a float number of
milliseconds; the embedding keeps the three cases as an explicit inductive type
and reproduces the dynamic-type tests of the source, including the fact that
Python's `bool` is a subclass of `int`, so `False` passes an
`isinstance(x, (int, float))` check with numeric value 0.
-/

namespace PingTracer

attribute [local semireducible] Rat.add Rat.mul Rat.sub Rat.inv Rat.ofScientific

/-- RGB color triple, components as Python ints. -/
abbrev RGB := ℤ × ℤ × ℤ

def GREEN : RGB := (0, 255, 0)

def YELLOW : RGB := (255, 255, 0)

def RED : RGB := (255, 0, 0)

def BLUE : RGB := (0, 0, 255)

def BLACK : RGB := (0, 0, 0)

/-- The module-level helper `interpolate(a, b, t) = a + (b - a) * t`. -/
def interpolate (a b t : ℚ) : ℚ := a + (b - a) * t

/-- Python `int(...)` applied to a float: truncation toward zero. -/
def pyInt (q : ℚ) : ℤ := if q < 0 then -((-q).floor) else q.floor

/-- The module-level helper `interpolate_color_tuple`, componentwise
`int(interpolate(c1[i], c2[i], t))`. -/
def interpolate_color_tuple (c1 c2 : RGB) (t : ℚ) : RGB :=
  (pyInt (interpolate (c1.1 : ℚ) (c2.1 : ℚ) t),
   pyInt (interpolate (c1.2.1 : ℚ) (c2.2.1 : ℚ) t),
   pyInt (interpolate (c1.2.2 : ℚ) (c2.2.2 : ℚ) t))

/-- Round to the nearest integer, ties to even: Python's `round` on an exact value. -/
def roundHalfEven (q : ℚ) : ℤ :=
  let f := q.floor
  if q - f < 1/2 then f
  else if 1/2 < q - f then f + 1
  else if f % 2 = 0 then f else f + 1

/-- Python `round(q, 1)`: nearest multiple of 1/10, ties to even. -/
def pyRound1 (q : ℚ) : ℚ := (roundHalfEven (q * 10) : ℚ) / 10

/-- A ping outcome as carried in the Python code: `None` (timeout),
`False` (error from ping3 or an exception), or a float latency in ms. -/
inductive PingValue where
  | timeout
  | error
  | success (v : ℚ)
deriving DecidableEq, Repr

/-- The numeric value the statistics branch of `PingGraph.add_ping` sees when
`isinstance(ping_value, (int, float)) and ping_value >= 0` holds, and `none`
when that test fails.  Python's `bool` is an `int` subclass, so the error value
`False` passes the test with numeric value 0 (`False >= 0` is true); `None`
fails `isinstance`, and a negative float fails `>= 0`. -/
def statValue? : PingValue → Option ℚ
  | .timeout => none
  | .error => some 0
  | .success v => if 0 ≤ v then some v else none

/-- The per-host sample log and running aggregates of a `PingGraph`
(`self.pings` and the `stat_*` attributes). `stat_min`/`stat_max` start at
`float('inf')`/`float('-inf')`, modelled as `none` until a first update. -/
structure SeriesState where
  pings : List PingValue
  stat_count : ℕ
  stat_sum : ℚ
  stat_min : Option ℚ
  stat_max : Option ℚ
  stat_loss_count : ℕ
  stat_last_valid_ping : Option ℚ
  stat_jitter_sum : ℚ
  stat_jitter_count : ℕ
deriving DecidableEq, Repr

/-- The series state right after `PingGraph.__init__`. -/
def initSeries : SeriesState :=
  { pings := [], stat_count := 0, stat_sum := 0, stat_min := none, stat_max := none,
    stat_loss_count := 0, stat_last_valid_ping := none, stat_jitter_sum := 0,
    stat_jitter_count := 0 }

/-- The append and statistics-update section of `PingGraph.add_ping`
(lines 253-269): appends the sample, then either takes the success branch
(updating count, sum, min, max, jitter against `stat_last_valid_ping`, and
finally `stat_last_valid_ping` itself) or increments `stat_loss_count`. -/
def add_ping_stats (s : SeriesState) (ping_value : PingValue) : SeriesState :=
  let s1 := { s with pings := s.pings ++ [ping_value] }
  match statValue? ping_value with
  | some v =>
    { s1 with
      stat_count := s1.stat_count + 1,
      stat_sum := s1.stat_sum + v,
      stat_min := some (match s1.stat_min with | none => v | some m => min m v),
      stat_max := some (match s1.stat_max with | none => v | some m => max m v),
      stat_jitter_sum := s1.stat_jitter_sum +
        (match s1.stat_last_valid_ping with | some l => |v - l| | none => 0),
      stat_jitter_count := s1.stat_jitter_count +
        (match s1.stat_last_valid_ping with | some _ => 1 | none => 0),
      stat_last_valid_ping := some v }
  | none => { s1 with stat_loss_count := s1.stat_loss_count + 1 }

/-- Replay a sample list through the statistics section of `add_ping`,
starting from a fresh series. -/
def replaySeries (l : List PingValue) : SeriesState :=
  l.foldl add_ping_stats initSeries

/-- The `loss_percent` computed in `PingGraph.get_info_text`:
`round((self.stat_loss_count / total_pings) * 100, 1) if total_pings > 0 else 0`,
where `total_pings = self.stat_count + self.stat_loss_count`. -/
def get_info_loss_percent (s : SeriesState) : ℚ :=
  let total := s.stat_count + s.stat_loss_count
  if 0 < total then pyRound1 ((s.stat_loss_count : ℚ) / (total : ℚ) * 100) else 0

/-- One pixel column of the PIL image buffer, top row first. -/
abbrev Column := List RGB

/-- The PIL image buffer as a list of pixel columns (column `x` of the image). -/
abbrev Raster := List Column

/-- The height/color computation of `PingGraph.draw_line_on_image` for one
sample on an image of height `h`, including the final clamp
`lh = min(h, max(1, int(lh)))`.  `False`, `None` and negative numbers are the
full-height blocking indicator (BLUE); otherwise the four latency bands of the
source apply. -/
def line_height_color (bad_threshold so_bad_threshold : ℚ) (h : ℕ)
    (ping_value : PingValue) : ℤ × RGB :=
  let raw : ℤ × RGB :=
    match ping_value with
    | .timeout => ((h : ℤ), BLUE)
    | .error => ((h : ℤ), BLUE)
    | .success x =>
      if x < 0 then ((h : ℤ), BLUE)
      else if x < 1 then (1, GREEN)
      else if x < bad_threshold then
        let f := x / bad_threshold
        (max 1 (pyInt (interpolate 1 ((h : ℚ) * (1/2)) f)),
         interpolate_color_tuple GREEN YELLOW f)
      else if x < so_bad_threshold then
        let f := (x - bad_threshold) / (so_bad_threshold - bad_threshold)
        (pyInt (interpolate ((h : ℚ) * (1/2)) (h : ℚ) f),
         interpolate_color_tuple YELLOW RED f)
      else ((h : ℤ), RED)
  (min (h : ℤ) (max 1 raw.1), raw.2)

/-- The effect of the `putpixel` loop of `draw_line_on_image` on a single
column: rows `y0 = h - lh` through `h - 1` take the line color, rows above
keep their previous content. -/
def paint_column (bad_threshold so_bad_threshold : ℚ) (c : Column)
    (ping_value : PingValue) : Column :=
  let lhc := line_height_color bad_threshold so_bad_threshold c.length ping_value
  c.mapIdx (fun y p => if (c.length : ℤ) - lhc.1 ≤ (y : ℤ) then lhc.2 else p)

/-- `PingGraph.draw_line_on_image`: draws the sample as a vertical line in
column `x` of the image; an out-of-range `x` (or an empty image) is a no-op,
mirroring the source's bounds check. -/
def draw_line_on_image (bad_threshold so_bad_threshold : ℚ) (img : Raster)
    (x : ℤ) (ping_value : PingValue) : Raster :=
  if 0 ≤ x ∧ x < (img.length : ℤ) then
    match img[x.toNat]? with
    | some c => img.set x.toNat (paint_column bad_threshold so_bad_threshold c ping_value)
    | none => img
  else img

/-- The redraw loop of `PingGraph.redraw_image_buffer`: draws the given samples
at consecutive columns starting from column `x`. -/
def draw_pings_from (bad_threshold so_bad_threshold : ℚ) (img : Raster) (x : ℕ) :
    List PingValue → Raster
  | [] => img
  | v :: vs =>
    draw_pings_from bad_threshold so_bad_threshold
      (draw_line_on_image bad_threshold so_bad_threshold img (x : ℤ) v) (x + 1) vs

/-- The state of one `PingGraph` widget: its sample series, the canvas
dimensions the toolkit currently reports (`winfo_width`/`winfo_height`), the
recorded buffer dimensions, the next-draw cursor `current_buffer_index`, and
the image buffer (`none` while `self.pil_image is None`). -/
structure GraphState where
  series : SeriesState
  canvas_width : ℤ
  canvas_height : ℤ
  current_width : ℤ
  current_height : ℤ
  current_buffer_index : ℕ
  raster : Option Raster
deriving DecidableEq, Repr

/-- A `PingGraph` right after `__init__` (buffer missing, `current_width = 0`,
`current_height = 3`), with the canvas reporting the given dimensions. -/
def initGraph (cw ch : ℤ) : GraphState :=
  { series := initSeries, canvas_width := cw, canvas_height := ch,
    current_width := 0, current_height := 3, current_buffer_index := 0, raster := none }

/-- `PingGraph._create_or_resize_buffer`: clamps the height to at least 1,
fails (returns `none`, the source's `return False`, raising nothing) exactly
when `width <= 0`, and otherwise records the new dimensions and allocates a
fresh all-black raster. -/
def create_or_resize_buffer (s : GraphState) (width height : ℤ) : Option GraphState :=
  let height := max 1 height
  if width ≤ 0 then none
  else
    some { s with current_width := width, current_height := height,
                  raster := some (List.replicate width.toNat
                    (List.replicate height.toNat BLACK)) }

/-- `PingGraph.redraw_image_buffer`: clears the buffer and draws the last
`min(width, len(pings))` samples left-to-right from column 0, setting
`current_buffer_index` to that count; a missing or degenerate buffer is a no-op. -/
def redraw_image_buffer (bad_threshold so_bad_threshold : ℚ) (s : GraphState) : GraphState :=
  if s.raster.isNone ∨ s.current_width ≤ 0 ∨ s.current_height ≤ 0 then s
  else
    let w := s.current_width.toNat
    let h := s.current_height.toNat
    let visible := s.series.pings.drop (s.series.pings.length - w)
    let img := draw_pings_from bad_threshold so_bad_threshold
      (List.replicate w (List.replicate h BLACK)) 0 visible
    { s with raster := some img, current_buffer_index := visible.length }

/-- The buffer-ensure section of `PingGraph.add_ping`: if the buffer is missing
or does not match the canvas dimensions, recreate it at the canvas size (height
clamped to at least 1) and redraw history; `none` is the source's early
`return` when creation fails. -/
def add_ping_ensure (bad_threshold so_bad_threshold : ℚ) (s1 : GraphState) :
    Option GraphState :=
  if s1.raster.isNone ∨ s1.current_width ≠ s1.canvas_width
      ∨ s1.current_height ≠ s1.canvas_height then
    match create_or_resize_buffer s1 s1.canvas_width (max 1 s1.canvas_height) with
    | none => none
    | some sr => some (redraw_image_buffer bad_threshold so_bad_threshold sr)
  else some s1

/-- The shift-and-clear step of the full-buffer branch of `add_ping`: the crop
of columns `[1, w)` pasted at the origin (which leaves the last column's old
content in place, and is skipped when `w <= 1`), followed by the rectangle
blanking column `w - 1`. -/
def shift_clear (img : Raster) (w : ℤ) (h : ℕ) : Raster :=
  let shifted := if 1 < w then img.drop 1 ++ img.drop (img.length - 1) else img
  shifted.set (w.toNat - 1) (List.replicate h BLACK)

/-- The drawing section of `PingGraph.add_ping`: with `num_pings` the series
length after the append, draw at column `num_pings - 1` and set the cursor to
`num_pings` while `num_pings <= current_width`; otherwise shift columns left by
one, clear the last column, and draw the new sample there, leaving the cursor
alone. -/
def add_ping_draw (bad_threshold so_bad_threshold : ℚ) (s2 : GraphState)
    (ping_value : PingValue) : GraphState :=
  match s2.raster with
  | none => s2
  | some img =>
    let num_pings := s2.series.pings.length
    if (num_pings : ℤ) ≤ s2.current_width then
      { s2 with
        raster := some (draw_line_on_image bad_threshold so_bad_threshold img
          ((num_pings : ℤ) - 1) ping_value),
        current_buffer_index := num_pings }
    else
      { s2 with
        raster := some (draw_line_on_image bad_threshold so_bad_threshold
          (shift_clear img s2.current_width s2.current_height.toNat)
          (s2.current_width - 1) ping_value) }

/-- `PingGraph.add_ping`: append the sample and update the statistics, ensure
the buffer matches the canvas (giving up on the visual part if the buffer
cannot be created), then draw the new sample. -/
def add_ping (bad_threshold so_bad_threshold : ℚ) (s : GraphState)
    (ping_value : PingValue) : GraphState :=
  let s1 := { s with series := add_ping_stats s.series ping_value }
  match add_ping_ensure bad_threshold so_bad_threshold s1 with
  | none => s1
  | some s2 => add_ping_draw bad_threshold so_bad_threshold s2 ping_value

/-- Fold a list of samples through `add_ping`. -/
def add_pings (bad_threshold so_bad_threshold : ℚ) (s : GraphState)
    (l : List PingValue) : GraphState :=
  l.foldl (add_ping bad_threshold so_bad_threshold) s

/-- `PingGraph.on_resize` for a resize event reporting the given canvas
dimensions: skip when nothing changed and a buffer exists, or when the new
width is not positive; otherwise recreate the buffer (height clamped to at
least 1) and redraw history. -/
def on_resize (bad_threshold so_bad_threshold : ℚ) (s0 : GraphState)
    (event_width event_height : ℤ) : GraphState :=
  let s := { s0 with canvas_width := event_width, canvas_height := event_height }
  let new_height := max 1 event_height
  if (event_width = s.current_width ∧ new_height = s.current_height
        ∧ s.raster.isSome) ∨ event_width ≤ 0 then s
  else
    match create_or_resize_buffer s event_width new_height with
    | none => s
    | some sr => redraw_image_buffer bad_threshold so_bad_threshold sr

/-- The hover index computation of `PingGraph.on_mouse_move`: given the series
length, the live canvas width and the pointer column `x`, returns the series
index whose sample the handler displays, or `none` where the handler shows no
sample data (the "no data" path through `on_mouse_leave`). -/
def on_mouse_move_index (num_pings : ℕ) (canvas_width : ℤ) (x : ℤ) : Option ℕ :=
  if canvas_width ≤ 0 then none
  else if num_pings = 0 then none
  else
    let target : ℤ :=
      if (num_pings : ℤ) < canvas_width then
        (if 0 ≤ x ∧ x < (num_pings : ℤ) then x else -1)
      else
        (if 0 ≤ x ∧ x < canvas_width then (num_pings : ℤ) - canvas_width + x else -1)
    if 0 ≤ target ∧ target < (num_pings : ℤ) then some target.toNat else none

/-- The per-host removal test inside `PingApp.clean_unpingable`
(`pg.stat_count == 0 and (pg.stat_count + pg.stat_loss_count) > 10`); the
source inlines `min_attempts = 10`. -/
def isPrunable (stat_count stat_loss_count min_attempts : ℕ) : Bool :=
  stat_count == 0 && decide (min_attempts < stat_count + stat_loss_count)

/-- `PingApp.clean_unpingable` over the ordered tracked host list (the early
return when the session is not running is outside this state): never acts on a
singleton (or empty) host set, partitions hosts into removable and kept, and
removes nothing when nothing qualifies or when everything would qualify. -/
def clean_unpingable (hosts : List (String × GraphState)) :
    List (String × GraphState) :=
  if hosts.length ≤ 1 then hosts
  else
    let remove_ips := hosts.filter
      (fun hg => isPrunable hg.2.series.stat_count hg.2.series.stat_loss_count 10)
    let kept_ips := hosts.filter
      (fun hg => !(isPrunable hg.2.series.stat_count hg.2.series.stat_loss_count 10))
    if remove_ips.isEmpty then hosts
    else if kept_ips.isEmpty then hosts
    else kept_ips

/-- One `PingRunner` execution environment: whether the stop event was observed
set at the initial check, whether it was observed set at the final check that
guards `result_queue.put`, and what the (possibly skipped) probe produced. -/
structure RunnerCtx where
  stop_before : Bool
  stop_after : Bool
  outcome : PingValue
deriving DecidableEq, Repr

/-- The `ping_result` value `PingRunner.run` holds at its final check: `False`
(error) when the stop event was already set before probing, otherwise the
probe's outcome (timeouts as `None`, ping3 errors, unexpected types and
exceptions all as `False`, numbers kept). -/
def runner_result (c : RunnerCtx) : PingValue :=
  if c.stop_before then .error else c.outcome

/-- The queue write of `PingRunner.run`: the `(host_ip, round_index, result)`
tuple it posts, suppressed (`none`) when the stop event is observed set at the
final `if not self.stop_event.is_set()` guard. -/
def runner_message (host_ip : String) (index : ℕ) (c : RunnerCtx) :
    Option (String × ℕ × PingValue) :=
  if c.stop_after then none else some (host_ip, index, runner_result c)

/-- The messages a batch of runners places on the result queue, in order. -/
def collect_messages (runners : List (String × ℕ × RunnerCtx)) :
    List (String × ℕ × PingValue) :=
  runners.filterMap (fun r => runner_message r.1 r.2.1 r.2.2)

/-- One drain pass of `PingApp.process_ping_results` over the queued messages:
each `(host_ip, round_idx, ping_value)` is applied via `add_ping` to the graph
of a still-tracked host and silently discarded otherwise. -/
def process_ping_results (bad_threshold so_bad_threshold : ℚ)
    (graphs : List (String × GraphState))
    (msgs : List (String × ℕ × PingValue)) : List (String × GraphState) :=
  msgs.foldl
    (fun gs m => gs.map (fun hg =>
      if hg.1 = m.1 then (hg.1, add_ping bad_threshold so_bad_threshold hg.2 m.2.2)
      else hg))
    graphs

/-- The configuration fields of `config.Config` consumed by the engine. -/
structure AppConfig where
  ping_rate : ℚ
  ping_timeout : ℚ
  ping_size : ℤ
  bad_threshold : ℚ
  so_bad_threshold : ℚ
deriving DecidableEq, Repr

/-- The parsed contents of the five settings entry widgets; `none` models text
that `float(...)`/`int(...)` fails to parse (a `ValueError`). -/
structure EntryFields where
  rate_entry : Option ℚ
  timeout_entry : Option ℚ
  size_entry : Option ℤ
  bad_entry : Option ℚ
  so_bad_entry : Option ℚ
deriving DecidableEq, Repr

/-- The `--- Rate ---` block of `PingApp._read_settings`: accept the parsed
rate only within `[0.01, 50]`, otherwise keep (revert to) the current value. -/
def read_rate (x : Option ℚ) (c : AppConfig) : AppConfig :=
  match x with
  | some rate => if 1/100 ≤ rate ∧ rate ≤ 50 then { c with ping_rate := rate } else c
  | none => c

/-- The `--- Timeout ---` block of `_read_settings`: bounds `[0.1, 10]`. -/
def read_timeout (x : Option ℚ) (c : AppConfig) : AppConfig :=
  match x with
  | some t => if 1/10 ≤ t ∧ t ≤ 10 then { c with ping_timeout := t } else c
  | none => c

/-- The `--- Size ---` block of `_read_settings`: bounds `[0, 1400]`. -/
def read_size (x : Option ℤ) (c : AppConfig) : AppConfig :=
  match x with
  | some sz => if 0 ≤ sz ∧ sz ≤ 1400 then { c with ping_size := sz } else c
  | none => c

/-- The `--- Bad Threshold ---` block of `_read_settings`: bounds `[1, 5000]`. -/
def read_bad (x : Option ℚ) (c : AppConfig) : AppConfig :=
  match x with
  | some bad => if 1 ≤ bad ∧ bad ≤ 5000 then { c with bad_threshold := bad } else c
  | none => c

/-- The `--- So Bad Threshold ---` block of `_read_settings`: accept only a
value strictly above the (possibly just-updated) bad threshold and at most
5000; otherwise force `so_bad = bad + 50`. -/
def read_so_bad (x : Option ℚ) (c : AppConfig) : AppConfig :=
  match x with
  | some sb =>
    if c.bad_threshold < sb ∧ sb ≤ 5000 then { c with so_bad_threshold := sb }
    else { c with so_bad_threshold := c.bad_threshold + 50 }
  | none => { c with so_bad_threshold := c.bad_threshold + 50 }

/-- `PingApp._read_settings`: each field is validated against its bounds and
reverted (configuration kept) on failure; the so-bad threshold must exceed the
(possibly just-updated) bad threshold or it is forced to `bad + 50`, and a
final guard reasserts `bad < so_bad`. -/
def read_settings (e : EntryFields) (c0 : AppConfig) : AppConfig :=
  let c5 := read_so_bad e.so_bad_entry (read_bad e.bad_entry
    (read_size e.size_entry (read_timeout e.timeout_entry (read_rate e.rate_entry c0))))
  if c5.so_bad_threshold ≤ c5.bad_threshold then
    { c5 with so_bad_threshold := c5.bad_threshold + 50 }
  else c5

/-! ## Helper lemmas -/

theorem add_ping_stats_pings (s : SeriesState) (p : PingValue) :
    (add_ping_stats s p).pings = s.pings ++ [p] := by
  cases p with
  | timeout => rfl
  | error => rfl
  | success v =>
    by_cases h : (0 : ℚ) ≤ v <;> simp [add_ping_stats, statValue?, h]

theorem add_ping_stats_total (s : SeriesState) (p : PingValue) :
    (add_ping_stats s p).stat_count + (add_ping_stats s p).stat_loss_count
      = s.stat_count + s.stat_loss_count + 1 := by
  cases p with
  | timeout => simp [add_ping_stats, statValue?]; omega
  | error => simp [add_ping_stats, statValue?]; omega
  | success v =>
    by_cases h : (0 : ℚ) ≤ v <;> simp [add_ping_stats, statValue?, h] <;> omega

theorem foldl_stats_total (l : List PingValue) (s : SeriesState) :
    (l.foldl add_ping_stats s).stat_count + (l.foldl add_ping_stats s).stat_loss_count
      = s.stat_count + s.stat_loss_count + l.length := by
  induction l generalizing s with
  | nil => simp
  | cons p l ih =>
    simp only [List.foldl_cons, List.length_cons]
    rw [ih (add_ping_stats s p), add_ping_stats_total]
    omega

theorem replaySeries_total (l : List PingValue) :
    (replaySeries l).stat_count + (replaySeries l).stat_loss_count = l.length := by
  simpa [initSeries] using foldl_stats_total l initSeries

/-! ## Claims -/

/-- C3 counterexample: the claim says appending
`[Success(10), Timeout, Success(20)]` yields jitter count 0; the code yields
jitter count 1, because a loss leaves `stat_last_valid_ping` untouched. -/
theorem jitter_across_loss_counterexample :
    ¬ (replaySeries [PingValue.success 10, PingValue.timeout,
        PingValue.success 20]).stat_jitter_count = 0 := by
  decide

/-- C3 (amended): appending `[Success(10), Timeout, Success(20)]` yields jitter
count 1 and jitter sum `|20 - 10| = 10`: a Timeout only increments the loss
count and does not reset `stat_last_valid_ping`, so jitter is accumulated
between each success and the most recent prior success even across losses. -/
theorem jitter_across_loss_eval :
    (replaySeries [PingValue.success 10, PingValue.timeout,
        PingValue.success 20]).stat_jitter_count = 1
    ∧ (replaySeries [PingValue.success 10, PingValue.timeout,
        PingValue.success 20]).stat_jitter_sum = 10
    ∧ (replaySeries [PingValue.success 10, PingValue.timeout,
        PingValue.success 20]).stat_loss_count = 1 := by
  refine ⟨by decide, ?_, by decide⟩
  show (add_ping_stats (add_ping_stats (add_ping_stats initSeries
    (PingValue.success 10)) PingValue.timeout) (PingValue.success 20)).stat_jitter_sum = 10
  norm_num [add_ping_stats, statValue?, initSeries]

/-- C10: after every append the success count plus the loss count equals the
series length (each sample counted exactly once); but the classification
diverges from the claim at the error sample `False`: because Python's `bool`
subclasses `int`, `isinstance(False, (int, float)) and False >= 0` holds, so an
error is counted as a success of 0 ms rather than as a loss — contradicting
the code's own `else` comment `# Timeout or error (None, False, < 0)`. -/
theorem stats_count_partition_eval :
    (∀ l : List PingValue,
      (replaySeries l).stat_count + (replaySeries l).stat_loss_count = l.length)
    ∧ (add_ping_stats initSeries PingValue.error).stat_count = 1
    ∧ (add_ping_stats initSeries PingValue.error).stat_loss_count = 0
    ∧ (add_ping_stats initSeries PingValue.timeout).stat_loss_count = 1
    ∧ (add_ping_stats initSeries (PingValue.success (-1))).stat_loss_count = 1 := by
  exact ⟨replaySeries_total, by decide, by decide, by decide, by decide⟩

/-- C8: whatever the settings entry fields contain and whatever configuration
was in force before, after `_read_settings` completes the configuration
satisfies `bad_threshold < so_bad_threshold`: an invalid so-bad entry is
replaced by `bad + 50`, a valid one is accepted only above the bad threshold,
and the final guard re-establishes the invariant in every remaining case. -/
theorem read_settings_threshold_invariant :
    ∀ (e : EntryFields) (c : AppConfig),
      (read_settings e c).bad_threshold < (read_settings e c).so_bad_threshold := by
  have key : ∀ (x : Option ℚ) (c : AppConfig),
      (read_so_bad x c).bad_threshold < (read_so_bad x c).so_bad_threshold := by
    intro x c
    cases x with
    | none => simp only [read_so_bad]; linarith
    | some sb =>
      by_cases h : c.bad_threshold < sb ∧ sb ≤ 5000
      · simp only [read_so_bad, if_pos h]; exact h.1
      · simp only [read_so_bad, if_neg h]; linarith
  intro e c
  unfold read_settings
  set c5 := read_so_bad e.so_bad_entry (read_bad e.bad_entry
    (read_size e.size_entry (read_timeout e.timeout_entry (read_rate e.rate_entry c)))) with hc5
  have h5 := key e.so_bad_entry (read_bad e.bad_entry
    (read_size e.size_entry (read_timeout e.timeout_entry (read_rate e.rate_entry c))))
  rw [← hc5] at h5
  by_cases h : c5.so_bad_threshold ≤ c5.bad_threshold
  · exact absurd h5 (not_lt.mpr h)
  · simp only [if_neg h]
    exact h5

/-- C2: the hover lookup maps a pointer column to a series index: below the
width the index is the column itself (valid only below the series length),
otherwise it is `seriesLength - width + column`; columns outside the data area
give `none` ("no data") rather than an error; and after exactly 10 samples at
width 5, column 0 maps to index 5, column 4 to index 9, and any column outside
`[0, 5)` gives `none`. -/
theorem on_mouse_move_index_spec :
    (∀ (num_pings : ℕ) (w x : ℤ), 0 < w → (num_pings : ℤ) < w →
      on_mouse_move_index num_pings w x =
        if 0 ≤ x ∧ x < (num_pings : ℤ) then some x.toNat else none)
    ∧ (∀ (num_pings : ℕ) (w x : ℤ), 0 < w → w ≤ (num_pings : ℤ) →
      on_mouse_move_index num_pings w x =
        if 0 ≤ x ∧ x < w then some ((num_pings : ℤ) - w + x).toNat else none)
    ∧ on_mouse_move_index 10 5 0 = some 5
    ∧ on_mouse_move_index 10 5 4 = some 9
    ∧ (∀ x : ℤ, x < 0 ∨ 5 ≤ x → on_mouse_move_index 10 5 x = none) := by
  refine ⟨?_, ?_, by decide, by decide, ?_⟩
  · intro n w x hw hn
    simp only [on_mouse_move_index]
    split_ifs <;> first | rfl | (exfalso; omega) | (congr 1; omega)
  · intro n w x hw hn
    simp only [on_mouse_move_index]
    split_ifs <;> first | rfl | (exfalso; omega) | (congr 1; omega)
  · intro x hx
    simp only [on_mouse_move_index]
    split_ifs <;> first | rfl | (exfalso; omega)

/-- C2 witness: concrete instances of both hover branches. -/
theorem on_mouse_move_index_spec_witness :
    on_mouse_move_index 3 5 2 = some 2 ∧ on_mouse_move_index 7 5 1 = some 3 := by
  constructor
  · exact (on_mouse_move_index_spec.1 3 5 2 (by decide) (by decide)).trans (by decide)
  · exact (on_mouse_move_index_spec.2.1 7 5 1 (by decide) (by decide)).trans (by decide)

/-- C6: a host is prunable iff its success count is 0 and its total attempts
exceed `min_attempts` (11 attempts with 0 successes qualify under 10, 10
attempts do not); the pruning pass leaves a single remaining host alone and,
when every tracked host would qualify, removes none of them. -/
theorem clean_unpingable_spec :
    (∀ sc lc m : ℕ, isPrunable sc lc m = true ↔ (sc = 0 ∧ m < sc + lc))
    ∧ isPrunable 0 11 10 = true
    ∧ isPrunable 0 10 10 = false
    ∧ (∀ hosts : List (String × GraphState), hosts.length = 1 →
        clean_unpingable hosts = hosts)
    ∧ (∀ hosts : List (String × GraphState),
        (∀ hg ∈ hosts,
          isPrunable hg.2.series.stat_count hg.2.series.stat_loss_count 10 = true) →
        clean_unpingable hosts = hosts) := by
  refine ⟨?_, by decide, by decide, ?_, ?_⟩
  · intro sc lc m
    simp [isPrunable, Bool.and_eq_true, beq_iff_eq, decide_eq_true_eq]
  · intro hosts h1
    unfold clean_unpingable
    rw [if_pos (by omega)]
  · intro hosts hall
    by_cases hlen : hosts.length ≤ 1
    · unfold clean_unpingable
      rw [if_pos hlen]
    · have hkept : hosts.filter
          (fun hg => !(isPrunable hg.2.series.stat_count hg.2.series.stat_loss_count 10))
          = [] := by
        rw [List.filter_eq_nil]
        intro hg hmem
        simp [hall hg hmem]
      have hrem : hosts.filter
          (fun hg => isPrunable hg.2.series.stat_count hg.2.series.stat_loss_count 10)
          = hosts := List.filter_eq_self.mpr (fun hg hmem => hall hg hmem)
      unfold clean_unpingable
      rw [if_neg hlen]
      simp only [hkept, hrem]
      cases hosts with
      | nil => rfl
      | cons a t => simp [List.isEmpty]

/-- A tracked-host key used in concrete instances. -/
def ipA : String := "192.0.2.1"

/-- A second tracked-host key used in concrete instances. -/
def ipB : String := "192.0.2.2"

/-- A host that never succeeded in 11 attempts: prunable under the code's test. -/
def deadHost : GraphState :=
  { initGraph 0 0 with series := { initSeries with stat_loss_count := 11 } }

/-- C6 witness: the prunable test at 11 failed attempts, the all-prunable
guard on a concrete two-host list, and the single-host guard. -/
theorem clean_unpingable_spec_witness :
    isPrunable 0 11 10 = true
    ∧ clean_unpingable [(ipA, deadHost), (ipB, deadHost)]
        = [(ipA, deadHost), (ipB, deadHost)]
    ∧ clean_unpingable [(ipA, deadHost)] = [(ipA, deadHost)] := by
  refine ⟨clean_unpingable_spec.2.1, ?_, ?_⟩
  · exact clean_unpingable_spec.2.2.2.2 _ (by decide)
  · exact clean_unpingable_spec.2.2.2.1 _ (by decide)

/-- C7: a probe task that observes the raised stop signal at its final check
suppresses its channel write (`runner_message = none`), and consequently the
result-routing pass applied to any queue in which that write would have
appeared leaves every host's state exactly as if the task had never posted:
no sample from it is ever appended to any series. -/
theorem stop_suppresses_result :
    ∀ (host_ip : String) (index : ℕ) (c : RunnerCtx), c.stop_after = true →
      runner_message host_ip index c = none
      ∧ ∀ (bad so_bad : ℚ) (graphs : List (String × GraphState))
          (pre post : List (String × ℕ × PingValue)),
          process_ping_results bad so_bad graphs
              (pre ++ (runner_message host_ip index c).toList ++ post)
            = process_ping_results bad so_bad graphs (pre ++ post) := by
  intro host_ip index c h
  have hmsg : runner_message host_ip index c = none := by
    simp [runner_message, h]
  refine ⟨hmsg, ?_⟩
  intro bad so_bad graphs pre post
  rw [hmsg]
  simp

/-- A runner context for a probe dispatched before the stop but completing
after it, observing the raised signal at its final check. -/
def ctxObserved : RunnerCtx :=
  { stop_before := false, stop_after := true, outcome := PingValue.success 5 }

/-- C7 witness: a concrete probe observing the stop signal posts nothing and
changes no tracked host. -/
theorem stop_suppresses_result_witness :
    runner_message ipA 3 ctxObserved = none
    ∧ process_ping_results 100 200 [(ipA, initGraph 5 2)]
        ([] ++ (runner_message ipA 3 ctxObserved).toList ++ [])
      = process_ping_results 100 200 [(ipA, initGraph 5 2)] ([] ++ []) := by
  have h := stop_suppresses_result ipA 3 ctxObserved (by decide)
  exact ⟨h.1, h.2 100 200 [(ipA, initGraph 5 2)] [] []⟩

/-- C4 counterexample: one success and two losses give the exact ratio
`200/3 %`, but the snapshot reports `round(200/3, 1) = 66.7`, so the reported
loss percentage is not exactly `lossCount/(successCount+lossCount)*100`. -/
theorem loss_percent_exact_counterexample :
    ¬ get_info_loss_percent
        (replaySeries [PingValue.success 10, PingValue.timeout, PingValue.timeout])
      = ((replaySeries [PingValue.success 10, PingValue.timeout,
            PingValue.timeout]).stat_loss_count : ℚ)
        / (((replaySeries [PingValue.success 10, PingValue.timeout,
              PingValue.timeout]).stat_count : ℚ)
           + ((replaySeries [PingValue.success 10, PingValue.timeout,
              PingValue.timeout]).stat_loss_count : ℚ)) * 100 := by
  decide

/-- C4 (amended): for every nonempty sample sequence, the snapshot's loss
percentage equals `lossCount/(successCount+lossCount)*100` rounded half-to-even
to one decimal place (Python's `round(x, 1)`), and the success and loss counts
together account for every appended sample. -/
theorem loss_percent_rounded_formula :
    ∀ l : List PingValue, l ≠ [] →
      (replaySeries l).stat_count + (replaySeries l).stat_loss_count = l.length
      ∧ get_info_loss_percent (replaySeries l)
          = pyRound1 (((replaySeries l).stat_loss_count : ℚ)
              / (((replaySeries l).stat_count : ℚ)
                 + ((replaySeries l).stat_loss_count : ℚ)) * 100) := by
  intro l hl
  have htot := replaySeries_total l
  refine ⟨htot, ?_⟩
  have hpos : 0 < (replaySeries l).stat_count + (replaySeries l).stat_loss_count := by
    rw [htot]
    exact List.length_pos.mpr hl
  unfold get_info_loss_percent
  rw [if_pos hpos, Nat.cast_add]

/-- C4 witness: a single timeout reports a loss percentage of exactly 100. -/
theorem loss_percent_rounded_formula_witness :
    (replaySeries [PingValue.timeout]).stat_count
        + (replaySeries [PingValue.timeout]).stat_loss_count = 1
    ∧ get_info_loss_percent (replaySeries [PingValue.timeout]) = 100 := by
  have h := loss_percent_rounded_formula [PingValue.timeout] (by decide)
  exact ⟨h.1, h.2.trans (by decide)⟩

theorem ratFloor_eq_floor (q : ℚ) : q.floor = ⌊q⌋ := rfl

theorem pyInt_half (h : ℕ) : pyInt ((h : ℚ) * (1/2)) = ((h / 2 : ℕ) : ℤ) := by
  have h0 : ¬ ((h : ℚ) * (1/2) < 0) := not_lt.mpr (by positivity)
  rw [pyInt, if_neg h0, ratFloor_eq_floor]
  have hq : (h : ℚ) * (1/2) = (h : ℚ) / 2 := by ring
  rw [hq, Int.floor_eq_iff]
  constructor
  · have hle : (h / 2) * 2 ≤ h := Nat.div_mul_le_self h 2
    push_cast
    rw [le_div_iff (by norm_num : (0:ℚ) < 2)]
    exact_mod_cast hle
  · have hlt : h < (h / 2 + 1) * 2 := by omega
    push_cast
    rw [div_lt_iff (by norm_num : (0:ℚ) < 2)]
    exact_mod_cast hlt

/-- C5 counterexample: at buffer height 3 and thresholds `bad=100, soBad=200`,
a latency of exactly 100 is drawn with line height 1, which is not exactly 50%
of the buffer height (`2 * 1 ≠ 3`): at odd heights the code's
`int(h * 0.5)` floors. -/
theorem color_mapper_half_height_counterexample :
    (line_height_color 100 200 3 (PingValue.success 100)).1 = 1
    ∧ ¬ (2 * (line_height_color 100 200 3 (PingValue.success 100)).1 = 3) := by
  decide

/-- C5 (amended): with `bad=100, soBad=200` on a buffer of height `h ≥ 1`:
latency 0.5 gives the minimum height 1 in the good color; latency 100 gives
height `max(1, ⌊h/2⌋)` — exactly 50% of the buffer height whenever `h` is
even — in the warning/bad boundary color; latency 250 gives full height in the
bad color; a Timeout gives full height in the blocking color regardless of the
thresholds; and the computed height is always clamped into `[1, h]`. -/
theorem color_mapper_spec :
    ∀ h : ℕ, 1 ≤ h →
      line_height_color 100 200 h (PingValue.success (1/2)) = (1, GREEN)
      ∧ line_height_color 100 200 h (PingValue.success 100)
          = (max 1 ((h / 2 : ℕ) : ℤ), YELLOW)
      ∧ (2 ∣ h → line_height_color 100 200 h (PingValue.success 100)
          = (((h / 2 : ℕ) : ℤ), YELLOW))
      ∧ line_height_color 100 200 h (PingValue.success 250) = ((h : ℤ), RED)
      ∧ (∀ bad so_bad : ℚ,
          line_height_color bad so_bad h PingValue.timeout = ((h : ℤ), BLUE))
      ∧ (∀ (bad so_bad : ℚ) (v : PingValue),
          1 ≤ (line_height_color bad so_bad h v).1
          ∧ (line_height_color bad so_bad h v).1 ≤ (h : ℤ)) := by
  intro h hh
  have h100 : line_height_color 100 200 h (PingValue.success 100)
      = (max 1 ((h / 2 : ℕ) : ℤ), YELLOW) := by
    simp only [line_height_color]
    rw [if_neg (by norm_num), if_neg (by norm_num), if_neg (by norm_num),
      if_pos (by norm_num)]
    rw [show ((100:ℚ) - 100) / (200 - 100) = 0 by norm_num]
    rw [show interpolate ((h : ℚ) * (1/2)) (h : ℚ) 0 = (h : ℚ) * (1/2) by
      simp [interpolate]]
    rw [pyInt_half]
    rw [show interpolate_color_tuple YELLOW RED 0 = YELLOW from by decide]
    rw [Prod.mk.injEq]
    exact ⟨by omega, rfl⟩
  refine ⟨?_, h100, ?_, ?_, ?_, ?_⟩
  · simp only [line_height_color]
    rw [if_neg (by norm_num), if_pos (by norm_num)]
    rw [Prod.mk.injEq]
    exact ⟨by omega, rfl⟩
  · intro heven
    rw [h100, Prod.mk.injEq]
    have h2 : 1 ≤ h / 2 := by omega
    exact ⟨by omega, rfl⟩
  · simp only [line_height_color]
    rw [if_neg (by norm_num), if_neg (by norm_num), if_neg (by norm_num),
      if_neg (by norm_num)]
    rw [Prod.mk.injEq]
    exact ⟨by omega, rfl⟩
  · intro bad so_bad
    simp only [line_height_color]
    rw [Prod.mk.injEq]
    exact ⟨by omega, rfl⟩
  · intro bad so_bad v
    cases v with
    | timeout => simp only [line_height_color]; constructor <;> omega
    | error => simp only [line_height_color]; constructor <;> omega
    | success x =>
      simp only [line_height_color]
      split_ifs <;> constructor <;> omega

/-- C5 witness: the amended mapping evaluated at buffer height 4. -/
theorem color_mapper_spec_witness :
    line_height_color 100 200 4 (PingValue.success (1/2)) = (1, GREEN)
    ∧ line_height_color 100 200 4 (PingValue.success 100) = (2, YELLOW)
    ∧ line_height_color 100 200 4 (PingValue.success 250) = (4, RED)
    ∧ line_height_color 100 200 4 PingValue.timeout = (4, BLUE)
    ∧ 1 ≤ (line_height_color 100 200 4 (PingValue.success 7)).1
    ∧ (line_height_color 100 200 4 (PingValue.success 7)).1 ≤ 4 := by
  have h := color_mapper_spec 4 (by decide)
  refine ⟨h.1, (h.2.2.1 (by decide)).trans (by decide),
    h.2.2.2.1.trans (by decide), (h.2.2.2.2.1 100 200).trans (by decide),
    (h.2.2.2.2.2 100 200 (PingValue.success 7)).1,
    (h.2.2.2.2.2 100 200 (PingValue.success 7)).2⟩

theorem create_or_resize_buffer_pos (s : GraphState) (w ht : ℤ) (hw : 0 < w) :
    create_or_resize_buffer s w ht
      = some { s with
               current_width := w,
               current_height := max 1 ht,
               raster := some (List.replicate w.toNat
                 (List.replicate (max 1 ht).toNat BLACK)) } := by
  unfold create_or_resize_buffer
  rw [if_neg (by omega)]

theorem redraw_raster_isSome (bad so_bad : ℚ) (s : GraphState)
    (h : (s.raster).isSome = true) :
    ((redraw_image_buffer bad so_bad s).raster).isSome = true := by
  unfold redraw_image_buffer
  split_ifs with hcond
  · exact h
  · simp

/-- C9: buffer creation at a non-positive width fails by returning `none` (the
source's `return False`, no exception); a subsequent `add_ping` with no buffer
and a non-positive canvas width still records the sample and its statistics but
leaves the buffer state untouched (the drawing becomes a no-op and the session
keeps running, since the embedding is a total function); and a resize to any
positive width produces a buffer again. -/
theorem buffer_failure_noop_spec :
    (∀ (s : GraphState) (w ht : ℤ), w ≤ 0 → create_or_resize_buffer s w ht = none)
    ∧ (∀ (bad so_bad : ℚ) (s : GraphState) (v : PingValue),
        s.raster = none → s.canvas_width ≤ 0 →
        (add_ping bad so_bad s v).raster = none
        ∧ (add_ping bad so_bad s v).series = add_ping_stats s.series v
        ∧ (add_ping bad so_bad s v).current_width = s.current_width
        ∧ (add_ping bad so_bad s v).current_buffer_index = s.current_buffer_index)
    ∧ (∀ (bad so_bad : ℚ) (s : GraphState) (w ht : ℤ), 0 < w →
        ((on_resize bad so_bad s w ht).raster).isSome = true) := by
  refine ⟨?_, ?_, ?_⟩
  · intro s w ht hw
    unfold create_or_resize_buffer
    rw [if_pos hw]
  · intro bad so_bad s v hrast hcw
    have hcreate : create_or_resize_buffer { s with series := add_ping_stats s.series v }
        s.canvas_width (max 1 s.canvas_height) = none := by
      unfold create_or_resize_buffer
      rw [if_pos hcw]
    have hens : add_ping_ensure bad so_bad
        { s with series := add_ping_stats s.series v } = none := by
      unfold add_ping_ensure
      rw [if_pos (by simp [hrast])]
      rw [hcreate]
    have heq : add_ping bad so_bad s v = { s with series := add_ping_stats s.series v } := by
      simp only [add_ping]
      rw [hens]
    rw [heq]
    exact ⟨hrast, rfl, rfl, rfl⟩
  · intro bad so_bad s w ht hw
    simp only [on_resize]
    split_ifs with hcond
    · rcases hcond with ⟨_, _, h3⟩ | hle
      · exact h3
      · omega
    · rw [create_or_resize_buffer_pos _ w (max 1 ht) hw]
      exact redraw_raster_isSome _ _ _ (by simp)

/-- C9 witness: a fresh graph on a zero-width canvas — creation fails, a
sample is recorded without drawing, and a later positive resize restores a
buffer. -/
theorem buffer_failure_noop_spec_witness :
    create_or_resize_buffer (initGraph 0 0) 0 5 = none
    ∧ (add_ping 100 200 (initGraph 0 0) PingValue.timeout).raster = none
    ∧ (add_ping 100 200 (initGraph 0 0) PingValue.timeout).series
        = add_ping_stats initSeries PingValue.timeout
    ∧ ((on_resize 100 200 (initGraph 0 0) 3 2).raster).isSome = true := by
  have h := buffer_failure_noop_spec
  exact ⟨h.1 (initGraph 0 0) 0 5 (by decide),
    (h.2.1 100 200 (initGraph 0 0) PingValue.timeout rfl (by decide)).1,
    (h.2.1 100 200 (initGraph 0 0) PingValue.timeout rfl (by decide)).2.1,
    h.2.2 100 200 (initGraph 0 0) 3 2 (by decide)⟩

theorem draw_line_getElem_self (bad so_bad : ℚ) (img : Raster) (v : PingValue)
    (x : ℤ) (h0 : 0 ≤ x) (hx : x < (img.length : ℤ)) :
    (draw_line_on_image bad so_bad img x v)[x.toNat]?
      = (img[x.toNat]?).map (fun c => paint_column bad so_bad c v) := by
  unfold draw_line_on_image
  rw [if_pos ⟨h0, hx⟩]
  have hxl : x.toNat < img.length := by omega
  simp only [List.getElem?_eq_getElem hxl]
  rw [List.getElem?_set_self hxl]
  rfl

theorem draw_line_getElem_ne (bad so_bad : ℚ) (img : Raster) (v : PingValue)
    (x : ℤ) (j : ℕ) (hj : (j : ℤ) ≠ x) :
    (draw_line_on_image bad so_bad img x v)[j]? = img[j]? := by
  unfold draw_line_on_image
  split_ifs with hg
  · have hxl : x.toNat < img.length := by omega
    simp only [List.getElem?_eq_getElem hxl]
    rw [List.getElem?_set_ne (by omega)]
  · rfl

theorem draw_line_length (bad so_bad : ℚ) (img : Raster) (v : PingValue) (x : ℤ) :
    (draw_line_on_image bad so_bad img x v).length = img.length := by
  unfold draw_line_on_image
  split_ifs with hg
  · have hxl : x.toNat < img.length := by omega
    simp only [List.getElem?_eq_getElem hxl]
    exact List.length_set ..
  · rfl

theorem shift_clear_length (img : Raster) (w : ℤ) (h : ℕ)
    (hlen : img.length = w.toNat) (hpos : 0 < w) :
    (shift_clear img w h).length = img.length := by
  unfold shift_clear
  split_ifs with h1
  · simp only [List.length_set, List.length_append, List.length_drop]
    omega
  · simp only [List.length_set]

theorem shift_clear_getElem_lt (img : Raster) (w : ℤ) (h : ℕ)
    (hlen : img.length = w.toNat) (hpos : 0 < w) (j : ℕ) (hj : j + 1 < img.length) :
    (shift_clear img w h)[j]? = img[j + 1]? := by
  unfold shift_clear
  have h1 : 1 < w := by omega
  rw [if_pos h1]
  rw [List.getElem?_set_ne (by omega)]
  rw [List.getElem?_append_left (by simp only [List.length_drop]; omega)]
  rw [List.getElem?_drop]
  congr 1
  omega

theorem shift_clear_getElem_last (img : Raster) (w : ℤ) (h : ℕ)
    (hlen : img.length = w.toNat) (hpos : 0 < w) :
    (shift_clear img w h)[img.length - 1]? = some (List.replicate h BLACK) := by
  unfold shift_clear
  split_ifs with h1
  · have hslen : (img.drop 1 ++ img.drop (img.length - 1)).length = img.length := by
      simp only [List.length_append, List.length_drop]
      omega
    have hidx : w.toNat - 1 = img.length - 1 := by omega
    rw [hidx]
    exact List.getElem?_set_self (by omega)
  · have hidx : w.toNat - 1 = img.length - 1 := by omega
    rw [hidx]
    exact List.getElem?_set_self (by omega)

/-- C1: one `add_ping` step on a graph whose buffer exists and matches the
canvas.  If the series length after the append is at most the buffer width,
the sample is painted onto column `length - 1` (all other columns untouched)
and the cursor becomes that length; if it exceeds the width, every column
`[1, W)` shifts into `[0, W-1)` (column 0's old content is discarded), column
`W-1` is cleared to background and the new sample is painted there, and the
cursor is unchanged. -/
theorem add_ping_draw_le (bad so_bad : ℚ) (t : GraphState) (img : Raster)
    (v : PingValue) (hr : t.raster = some img)
    (hle : (t.series.pings.length : ℤ) ≤ t.current_width) :
    add_ping_draw bad so_bad t v
      = { t with
          current_buffer_index := t.series.pings.length,
          raster := some (draw_line_on_image bad so_bad img
            ((t.series.pings.length : ℤ) - 1) v) } := by
  unfold add_ping_draw
  simp only [hr]
  rw [if_pos hle]

theorem add_ping_draw_gt (bad so_bad : ℚ) (t : GraphState) (img : Raster)
    (v : PingValue) (hr : t.raster = some img)
    (hgt : t.current_width < (t.series.pings.length : ℤ)) :
    add_ping_draw bad so_bad t v
      = { t with
          raster := some (draw_line_on_image bad so_bad
            (shift_clear img t.current_width t.current_height.toNat)
            (t.current_width - 1) v) } := by
  unfold add_ping_draw
  simp only [hr]
  rw [if_neg (not_le.mpr hgt)]

theorem add_ping_rolling_buffer_step (bad so_bad : ℚ) (s : GraphState)
    (img : Raster) (ping_value : PingValue)
    (himg : s.raster = some img)
    (hw : s.current_width = s.canvas_width)
    (hh : s.current_height = s.canvas_height)
    (hlen : img.length = s.current_width.toNat)
    (hpos : 0 < s.current_width) :
    ((s.series.pings.length + 1 : ℤ) ≤ s.current_width →
      (add_ping bad so_bad s ping_value).current_buffer_index
          = s.series.pings.length + 1
      ∧ ((add_ping bad so_bad s ping_value).raster.getD [])[s.series.pings.length]?
          = (img[s.series.pings.length]?).map
              (fun c => paint_column bad so_bad c ping_value)
      ∧ (∀ j : ℕ, j ≠ s.series.pings.length →
          ((add_ping bad so_bad s ping_value).raster.getD [])[j]? = img[j]?)
      ∧ (add_ping bad so_bad s ping_value).series.pings = s.series.pings ++ [ping_value])
    ∧ (s.current_width < (s.series.pings.length + 1 : ℤ) →
      (add_ping bad so_bad s ping_value).current_buffer_index
          = s.current_buffer_index
      ∧ (∀ j : ℕ, j + 1 < img.length →
          ((add_ping bad so_bad s ping_value).raster.getD [])[j]? = img[j + 1]?)
      ∧ ((add_ping bad so_bad s ping_value).raster.getD [])[img.length - 1]?
          = some (paint_column bad so_bad
              (List.replicate s.current_height.toNat BLACK) ping_value)
      ∧ (add_ping bad so_bad s ping_value).series.pings
          = s.series.pings ++ [ping_value]) := by
  set n0 := s.series.pings.length with hn0
  set s1 : GraphState := { s with series := add_ping_stats s.series ping_value } with hs1
  have hs1r : s1.raster = some img := himg
  have hens : add_ping_ensure bad so_bad s1 = some s1 := by
    unfold add_ping_ensure
    rw [if_neg]
    push_neg
    refine ⟨by simp [hs1, himg], hw, hh⟩
  have hadd : add_ping bad so_bad s ping_value = add_ping_draw bad so_bad s1 ping_value := by
    simp only [add_ping]
    rw [← hs1, hens]
  have hpings : s1.series.pings = s.series.pings ++ [ping_value] := by
    simp [hs1, add_ping_stats_pings]
  have hnum : s1.series.pings.length = n0 + 1 := by
    rw [hpings]
    simp [hn0]
  have hw1 : s1.current_width = s.current_width := rfl
  have hh1 : s1.current_height = s.current_height := rfl
  constructor
  · intro hle
    have hbranch := add_ping_draw_le bad so_bad s1 img ping_value hs1r
      (by rw [hnum, hw1]; push_cast; push_cast at hle; omega)
    have hx : ((s1.series.pings.length : ℤ) - 1) = (n0 : ℤ) := by
      rw [hnum]; push_cast; ring
    refine ⟨?_, ?_, ?_, ?_⟩
    · rw [hadd, hbranch]
      exact hnum
    · rw [hadd, hbranch]
      simp only [Option.getD_some]
      rw [hx]
      have := draw_line_getElem_self bad so_bad img ping_value (n0 : ℤ)
        (by omega) (by push_cast at hle ⊢; omega)
      simpa using this
    · intro j hj
      rw [hadd, hbranch]
      simp only [Option.getD_some]
      rw [hx]
      exact draw_line_getElem_ne bad so_bad img ping_value (n0 : ℤ) j
        (by exact_mod_cast hj)
    · rw [hadd, hbranch]
      exact hpings
  · intro hgt
    have hbranch := add_ping_draw_gt bad so_bad s1 img ping_value hs1r
      (by rw [hnum, hw1]; push_cast; push_cast at hgt; omega)
    have hsc_len : (shift_clear img s1.current_width s1.current_height.toNat).length
        = img.length := by
      rw [hw1]
      exact shift_clear_length img s.current_width _ hlen hpos
    have hlast : ((s.current_width : ℤ) - 1).toNat = img.length - 1 := by
      omega
    refine ⟨?_, ?_, ?_, ?_⟩
    · rw [hadd, hbranch]
    · intro j hj
      rw [hadd, hbranch]
      simp only [Option.getD_some]
      rw [hw1, hh1]
      rw [draw_line_getElem_ne bad so_bad _ ping_value (s.current_width - 1) j
        (by omega)]
      exact shift_clear_getElem_lt img s.current_width _ hlen hpos j hj
    · rw [hadd, hbranch]
      simp only [Option.getD_some]
      rw [hw1, hh1]
      have hself := draw_line_getElem_self bad so_bad
        (shift_clear img s.current_width s.current_height.toNat) ping_value
        (s.current_width - 1) (by omega)
        (by rw [shift_clear_length img s.current_width _ hlen hpos]; omega)
      rw [hlast] at hself
      rw [hself]
      rw [shift_clear_getElem_last img s.current_width _ hlen hpos]
      simp
    · rw [hadd, hbranch]
      exact hpings

/-- A fresh graph right after a successful resize to a 5-wide, 2-high canvas. -/
def g0w : GraphState := on_resize 100 200 (initGraph 5 2) 5 2

/-- The same graph after five samples: the buffer is exactly full. -/
def g5w : GraphState :=
  add_pings 100 200 g0w [PingValue.success 10, PingValue.success 150,
    PingValue.success 250, PingValue.timeout, PingValue.success 70]

/-- C1 witness: on the width-5 buffer, the first append puts the cursor at 1
(theorem, part one); three appends leave cursor 3 with columns 3 and 4 still
background; five appends reach cursor 5; and a sixth append keeps the cursor,
shifts column 1 into column 0, and paints the new sample over a cleared last
column (theorem, part two). -/
theorem add_ping_rolling_buffer_step_witness :
    (add_ping 100 200 g0w (PingValue.success 10)).current_buffer_index
        = g0w.series.pings.length + 1
    ∧ (add_pings 100 200 g0w [PingValue.success 10, PingValue.success 150,
        PingValue.success 250]).current_buffer_index = 3
    ∧ ((add_pings 100 200 g0w [PingValue.success 10, PingValue.success 150,
        PingValue.success 250]).raster.getD [])[3]? = some (List.replicate 2 BLACK)
    ∧ ((add_pings 100 200 g0w [PingValue.success 10, PingValue.success 150,
        PingValue.success 250]).raster.getD [])[4]? = some (List.replicate 2 BLACK)
    ∧ g5w.current_buffer_index = 5
    ∧ (add_ping 100 200 g5w (PingValue.success 60)).current_buffer_index
        = g5w.current_buffer_index
    ∧ ((add_ping 100 200 g5w (PingValue.success 60)).raster.getD [])[0]?
        = (g5w.raster.getD [])[0 + 1]?
    ∧ ((add_ping 100 200 g5w (PingValue.success 60)).raster.getD
        [])[(g5w.raster.getD []).length - 1]?
        = some (paint_column 100 200
            (List.replicate g5w.current_height.toNat BLACK) (PingValue.success 60)) := by
  have hA := add_ping_rolling_buffer_step 100 200 g0w (g0w.raster.getD [])
    (PingValue.success 10) (by decide) (by decide) (by decide) (by decide) (by decide)
  have hB := add_ping_rolling_buffer_step 100 200 g5w (g5w.raster.getD [])
    (PingValue.success 60) (by decide) (by decide) (by decide) (by decide) (by decide)
  refine ⟨(hA.1 (by decide)).1, by decide, by decide, by decide, by decide,
    (hB.2 (by decide)).1, (hB.2 (by decide)).2.1 0 (by decide),
    (hB.2 (by decide)).2.2.1⟩

end PingTracer
